import Mathlib

/-!
Verification development for the motionalyx-pdf-service repository.

The service (server source, referred to below as "the server file") renders
JSON payloads into PDFs via HTML templates, uploads them to cloud storage and
returns signed URLs.  This file gives a shallow embedding of the server code:

* JavaScript values appearing in request payloads are modelled by `JSVal`
  (integral numbers only; floating point is not exercised by any claim).
* The template substitution engine (`renderTemplate`, `formatDate`,
  the two regex passes) is modelled character by character; the two regexes
  of `renderTemplate` are deterministic (no backtracking is ever needed,
  because the character classes involved are pairwise disjoint), so each one
  is embedded as a maximal-munch matcher applied at every position from the
  left, exactly the semantics of JavaScript global `String.replace`.
* `new Date(...)` parsing is modelled for ISO `YYYY-MM-DD` date strings and
  for numeric epoch-millisecond inputs; other implementation-specific
  parsing formats of the JS engine are outside the modelled domain.
  The process time zone is modelled as UTC (the Docker image sets no TZ).
* The I/O collaborators (template file reads, the headless-browser render,
  the storage save and URL signing) are modelled as fallible functions in an
  environment record `Env`, returning `Except String` like thrown JS errors.
* `crypto.randomUUID()` and `nowStamp()` are modelled as values carried by
  `Env` (one draw; no claim depends on distinctness across calls).
-/

/-! ## JavaScript values -/

/-- A JavaScript value as it can appear in a JSON request payload.
Numbers are restricted to integers (no claim exercises non-integral
numbers, `NaN` or infinities). -/
inductive JSVal where
  | undef : JSVal
  | null : JSVal
  | bool : Bool → JSVal
  | num : Int → JSVal
  | str : String → JSVal
  | arr : List JSVal → JSVal
deriving Repr

mutual

/-- Decidable equality for `JSVal`. -/
def JSVal.beq : JSVal → JSVal → Bool
  | .undef, .undef => true
  | .null, .null => true
  | .bool a, .bool b => a == b
  | .num a, .num b => a == b
  | .str a, .str b => a == b
  | .arr a, .arr b => JSVal.beqList a b
  | _, _ => false

/-- Pointwise `JSVal.beq` on lists. -/
def JSVal.beqList : List JSVal → List JSVal → Bool
  | [], [] => true
  | a :: as, b :: bs => JSVal.beq a b && JSVal.beqList as bs
  | _, _ => false

end

mutual

theorem JSVal.beq_eq : ∀ a b : JSVal, JSVal.beq a b = true → a = b
  | .undef, .undef, _ => rfl
  | .null, .null, _ => rfl
  | .bool a, .bool b, h => by
    simp only [JSVal.beq, beq_iff_eq] at h
    exact h ▸ rfl
  | .num a, .num b, h => by
    simp only [JSVal.beq, beq_iff_eq] at h
    exact h ▸ rfl
  | .str a, .str b, h => by
    simp only [JSVal.beq, beq_iff_eq] at h
    exact h ▸ rfl
  | .arr a, .arr b, h => by
    simp only [JSVal.beq] at h
    exact congrArg JSVal.arr (JSVal.beqList_eq a b h)
  | .undef, .null, h => by simp [JSVal.beq] at h
  | .undef, .bool _, h => by simp [JSVal.beq] at h
  | .undef, .num _, h => by simp [JSVal.beq] at h
  | .undef, .str _, h => by simp [JSVal.beq] at h
  | .undef, .arr _, h => by simp [JSVal.beq] at h
  | .null, .undef, h => by simp [JSVal.beq] at h
  | .null, .bool _, h => by simp [JSVal.beq] at h
  | .null, .num _, h => by simp [JSVal.beq] at h
  | .null, .str _, h => by simp [JSVal.beq] at h
  | .null, .arr _, h => by simp [JSVal.beq] at h
  | .bool _, .undef, h => by simp [JSVal.beq] at h
  | .bool _, .null, h => by simp [JSVal.beq] at h
  | .bool _, .num _, h => by simp [JSVal.beq] at h
  | .bool _, .str _, h => by simp [JSVal.beq] at h
  | .bool _, .arr _, h => by simp [JSVal.beq] at h
  | .num _, .undef, h => by simp [JSVal.beq] at h
  | .num _, .null, h => by simp [JSVal.beq] at h
  | .num _, .bool _, h => by simp [JSVal.beq] at h
  | .num _, .str _, h => by simp [JSVal.beq] at h
  | .num _, .arr _, h => by simp [JSVal.beq] at h
  | .str _, .undef, h => by simp [JSVal.beq] at h
  | .str _, .null, h => by simp [JSVal.beq] at h
  | .str _, .bool _, h => by simp [JSVal.beq] at h
  | .str _, .num _, h => by simp [JSVal.beq] at h
  | .str _, .arr _, h => by simp [JSVal.beq] at h
  | .arr _, .undef, h => by simp [JSVal.beq] at h
  | .arr _, .null, h => by simp [JSVal.beq] at h
  | .arr _, .bool _, h => by simp [JSVal.beq] at h
  | .arr _, .num _, h => by simp [JSVal.beq] at h
  | .arr _, .str _, h => by simp [JSVal.beq] at h

theorem JSVal.beqList_eq : ∀ a b : List JSVal, JSVal.beqList a b = true → a = b
  | [], [], _ => rfl
  | x :: xs, y :: ys, h => by
    simp only [JSVal.beqList, Bool.and_eq_true] at h
    rw [JSVal.beq_eq x y h.1, JSVal.beqList_eq xs ys h.2]
  | [], _ :: _, h => by simp [JSVal.beqList] at h
  | _ :: _, [], h => by simp [JSVal.beqList] at h

end

mutual

theorem JSVal.beq_refl : ∀ a : JSVal, JSVal.beq a a = true
  | .undef => rfl
  | .null => rfl
  | .bool a => by simp [JSVal.beq]
  | .num a => by simp [JSVal.beq]
  | .str a => by simp [JSVal.beq]
  | .arr a => JSVal.beqList_refl a

theorem JSVal.beqList_refl : ∀ a : List JSVal, JSVal.beqList a a = true
  | [] => rfl
  | x :: xs => by
    simp only [JSVal.beqList, Bool.and_eq_true]
    exact ⟨JSVal.beq_refl x, JSVal.beqList_refl xs⟩

end

instance : DecidableEq JSVal := fun a b =>
  if h : JSVal.beq a b = true then
    isTrue (JSVal.beq_eq a b h)
  else
    isFalse (fun hab => h (hab ▸ JSVal.beq_refl a))

mutual

/-- JavaScript `String(v)` conversion.  Inside an array join, `null` and
`undefined` elements render as the empty string (JS `Array.prototype.join`
semantics); at top level they render as `"null"` / `"undefined"`. -/
def jsToString : JSVal → String
  | .undef => "undefined"
  | .null => "null"
  | .bool b => if b then "true" else "false"
  | .num n => toString n
  | .str s => s
  | .arr xs => String.intercalate "," (jsToStringElems xs)

/-- Element-wise conversion used by the array join. -/
def jsToStringElems : List JSVal → List String
  | [] => []
  | .undef :: xs => "" :: jsToStringElems xs
  | .null :: xs => "" :: jsToStringElems xs
  | x :: xs => jsToString x :: jsToStringElems xs

end

/-- JavaScript falsiness (`!v`): `undefined`, `null`, `false`, `0` and the
empty string are falsy; every array (even empty) is truthy. -/
def jsFalsy : JSVal → Bool
  | .undef => true
  | .null => true
  | .bool b => !b
  | .num n => n = 0
  | .str s => s = ""
  | .arr _ => false

/-- JavaScript `a || b`: the first operand when truthy, otherwise the second. -/
def jsOr (a b : JSVal) : JSVal := if jsFalsy a then b else a

/-- A request payload: a flat JS object, modelled as a total map from
property name to value, with `undef` standing for an absent property. -/
def Payload : Type := String → JSVal

/-! ## Character classes used by the server regexes -/

/-- The regex class `\s` (whitespace), restricted to the ASCII whitespace
characters (the only ones a claim exercises). -/
def isSpaceJS (c : Char) : Bool :=
  c = ' ' ∨ c = '\t' ∨ c = '\n' ∨ c = '\r' ∨ c = '\x0b' ∨ c = '\x0c'

/-- The regex class `[a-zA-Z0-9_]` of `renderTemplate`'s placeholder names. -/
def isIdentChar (c : Char) : Bool :=
  ('a' ≤ c ∧ c ≤ 'z') ∨ ('A' ≤ c ∧ c ≤ 'Z') ∨ ('0' ≤ c ∧ c ≤ '9') ∨ c = '_'

/-- The regex class `[a-z0-9]` of `safeSlug` (applied after lowercasing). -/
def isLowerAlnum (c : Char) : Bool :=
  ('a' ≤ c ∧ c ≤ 'z') ∨ ('0' ≤ c ∧ c ≤ '9')

theorem ident_not_space {c : Char} (h : isIdentChar c = true) : isSpaceJS c = false := by
  by_contra hs
  rw [Bool.not_eq_false] at hs
  simp only [isSpaceJS, decide_eq_true_eq] at hs
  rcases hs with hs | hs | hs | hs | hs | hs
  all_goals subst hs
  all_goals revert h
  all_goals decide

theorem ident_not_brace {c : Char} (h : isIdentChar c = true) : ¬ c = '\x7b' := by
  intro hc
  subst hc
  revert h
  decide

theorem ident_not_close {c : Char} (h : isIdentChar c = true) : ¬ c = '\x7d' := by
  intro hc
  subst hc
  revert h
  decide

theorem ident_not_pipe {c : Char} (h : isIdentChar c = true) : ¬ c = '|' := by
  intro hc
  subst hc
  revert h
  decide

/-! ## safeSlug -/

/-- A maximal-munch bound for recursion through `dropWhile`. -/
theorem length_dropWhile_le' (p : Char → Bool) (l : List Char) :
    (l.dropWhile p).length ≤ l.length := by
  induction l with
  | nil => simp
  | cons c cs ih =>
    by_cases h : p c
    · simp only [List.dropWhile_cons_of_pos h]
      exact Nat.le_succ_of_le ih
    · simp [List.dropWhile_cons_of_neg h]

/-- The regex replace `.replace(/[^a-z0-9]+/g, "-")` of `safeSlug`: each
maximal run of characters outside `[a-z0-9]` becomes a single dash. -/
def collapseRuns (l : List Char) : List Char :=
  match l with
  | [] => []
  | c :: cs =>
    if isLowerAlnum c then c :: collapseRuns cs
    else '-' :: collapseRuns (cs.dropWhile (fun x => !isLowerAlnum x))
termination_by l.length
decreasing_by
  · simp
  · have := length_dropWhile_le' (fun x => !isLowerAlnum x) cs
    simp only [List.length_cons]
    omega

/-- The regex replace `.replace(/^-|-$/g, "")` of `safeSlug`: remove one
leading dash and one trailing dash.  (The JS global regex matches `^-` at
most once and `-$` at most once, and after a `^-` match the scan resumes
past the consumed character, exactly this behaviour.) -/
def trimDash (l : List Char) : List Char :=
  let l1 := match l with
    | '-' :: rest => rest
    | other => other
  match l1.getLast? with
  | some '-' => l1.dropLast
  | _ => l1

/-- `safeSlug` from the server file: falsy input maps to `"client"`,
otherwise lowercase, collapse non-alphanumeric runs to dashes, trim one
leading/trailing dash, and keep the first 80 characters
(`String.prototype.slice(0, 80)`).  `Char.toLower` matches JS
`toLowerCase` on the ASCII domain covered by the claims. -/
def safeSlug (input : JSVal) : String :=
  if jsFalsy input then "client"
  else ⟨(trimDash (collapseRuns ((jsToString input).toList.map Char.toLower))).take 80⟩

/-! ## Date model: `new Date(...)` and `formatDate` -/

/-- A calendar date as observed through `getFullYear`, `getMonth` + 1 and
`getDate` with the process time zone modelled as UTC. -/
structure CivilDate where
  year : Int
  month : Nat
  day : Nat
deriving DecidableEq, Repr

/-- Civil date from a count of days since 1970-01-01 (proleptic Gregorian);
the standard era-based conversion, all divisions on nonnegative operands. -/
def civilFromDays (z0 : Int) : CivilDate :=
  let z := z0 + 719468
  let era := (if 0 ≤ z then z else z - 146096) / 146097
  let doe := z - era * 146097
  let yoe := (doe - doe / 1460 + doe / 36524 - doe / 146096) / 365
  let y := yoe + era * 400
  let doy := doe - (365 * yoe + yoe / 4 - yoe / 100)
  let mp := (5 * doy + 2) / 153
  let d := doy - (153 * mp + 2) / 5 + 1
  let m := if mp < 10 then mp + 3 else mp - 9
  ⟨if m ≤ 2 then y + 1 else y, m.toNat, d.toNat⟩

/-- Civil date (UTC) of an epoch-millisecond time value; floor division
selects the containing day for negative values as well. -/
def civilFromMs (ms : Int) : CivilDate := civilFromDays (Int.fdiv ms 86400000)

/-- Days in a month of the (leap-aware) Gregorian calendar. -/
def daysInMonth (y : Int) (m : Nat) : Nat :=
  if m = 2 then
    if y % 4 = 0 ∧ (y % 100 ≠ 0 ∨ y % 400 = 0) then 29 else 28
  else if m = 4 ∨ m = 6 ∨ m = 9 ∨ m = 11 then 30
  else 31

/-- Digit test and value. -/
def digitVal (c : Char) : Option Nat :=
  if '0' ≤ c ∧ c ≤ '9' then some (c.toNat - '0'.toNat) else none

/-- Parse of an ISO `YYYY-MM-DD` date-only string, the date-string format
with specified cross-engine behaviour for `new Date`; out-of-range month or
day components yield an invalid date (`none`), as in JS.  A date-only ISO
string is interpreted in UTC, which under the modelled UTC process time
zone observes the written calendar date unchanged. -/
def parseIsoDate (s : String) : Option CivilDate :=
  match s.toList with
  | [y1, y2, y3, y4, h1, m1, m2, h2, d1, d2] =>
    if h1 = '-' ∧ h2 = '-' then
      match digitVal y1, digitVal y2, digitVal y3, digitVal y4,
            digitVal m1, digitVal m2, digitVal d1, digitVal d2 with
      | some a, some b, some c, some d, some e, some f, some g, some h =>
        let year : Int := Int.ofNat (a * 1000 + b * 100 + c * 10 + d)
        let month := e * 10 + f
        let day := g * 10 + h
        if 1 ≤ month ∧ month ≤ 12 ∧ 1 ≤ day ∧ day ≤ daysInMonth year month then
          some ⟨year, month, day⟩
        else none
      | _, _, _, _, _, _, _, _ => none
    else none
  | _ => none

/-- The result of `new Date(v)` for a payload value `v`: `none` models an
invalid date (`NaN` time value).  Strings are modelled on the ISO
`YYYY-MM-DD` domain; numbers are epoch milliseconds within the JS time
range; booleans and `null` convert via `ToNumber`; an array converts via
`ToPrimitive` to its joined string form first. -/
def jsDateParse : JSVal → Option CivilDate
  | .undef => none
  | .null => some (civilFromMs 0)
  | .bool b => some (civilFromMs (if b then 1 else 0))
  | .num n => if n.natAbs ≤ 8640000000000000 then some (civilFromMs n) else none
  | .str s => parseIsoDate s
  | .arr xs => parseIsoDate (jsToString (.arr xs))

/-- Month names of `formatDate`. -/
def monthsJS : List String :=
  ["January", "February", "March", "April", "May", "June",
   "July", "August", "September", "October", "November", "December"]

/-- `String(n).padStart(2, "0")` for the numeric calendar fields. -/
def padTwo (n : Nat) : String := if n < 10 then "0" ++ toString n else toString n

/-- `formatDate` from the server file: falsy input short-circuits to the
empty string before any date parsing; an unparseable value falls back to
its `String(...)` form; the single supported named pattern renders
month-name, zero-padded day and year, and any other format string falls
back to the ISO `YYYY-MM-DD` rendering. -/
def formatDate (input : JSVal) (fmt : String) : String :=
  if jsFalsy input then ""
  else
    match jsDateParse input with
    | none => jsToString input
    | some dt =>
      let DD := padTwo dt.day
      let YYYY := toString dt.year
      let B := monthsJS.getD (dt.month - 1) ""
      if fmt = "%B %d, %Y" then B ++ " " ++ DD ++ ", " ++ YYYY
      else YYYY ++ "-" ++ padTwo dt.month ++ "-" ++ DD

/-! ## renderTemplate: the two substitution passes -/

/-- Match of the filtered-placeholder regex
`/{{\s*([a-zA-Z0-9_]+)\s*\|\s*date:\s*"([^"]+)"\s*}}/`
at the head of the input; on success returns the captured field name, the
captured format string, and the input remaining after the match.
Maximal-munch at each subexpression is exact here: every greedy
subpattern is followed by a pattern its own character class rejects, so
the regex engine never backtracks into it. -/
def matchFiltered (l : List Char) : Option (String × String × List Char) :=
  match l with
  | c1 :: c2 :: cs =>
    if c1 = '\x7b' ∧ c2 = '\x7b' then
      let cs1 := cs.dropWhile isSpaceJS
      let id := cs1.takeWhile isIdentChar
      if id = [] then none
      else
        match (cs1.dropWhile isIdentChar).dropWhile isSpaceJS with
        | p :: cs2 =>
          if p = '|' then
            match cs2.dropWhile isSpaceJS with
            | d1 :: d2 :: d3 :: d4 :: d5 :: cs3 =>
              if d1 = 'd' ∧ d2 = 'a' ∧ d3 = 't' ∧ d4 = 'e' ∧ d5 = ':' then
                match cs3.dropWhile isSpaceJS with
                | q :: cs4 =>
                  if q = '"' then
                    let fmt := cs4.takeWhile (fun c => !(c = '"'))
                    if fmt = [] then none
                    else
                      match cs4.dropWhile (fun c => !(c = '"')) with
                      | q2 :: cs5 =>
                        if q2 = '"' then
                          match cs5.dropWhile isSpaceJS with
                          | e1 :: e2 :: rest =>
                            if e1 = '\x7d' ∧ e2 = '\x7d' then some (⟨id⟩, ⟨fmt⟩, rest)
                            else none
                          | _ => none
                        else none
                      | _ => none
                  else none
                | _ => none
              else none
            | _ => none
          else none
        | _ => none
    else none
  | _ => none

/-- Match of the bare-placeholder regex `/{{\s*([a-zA-Z0-9_]+)\s*}}/` at the
head of the input; on success returns the captured field name and the input
remaining after the match. -/
def matchBare (l : List Char) : Option (String × List Char) :=
  match l with
  | c1 :: c2 :: cs =>
    if c1 = '\x7b' ∧ c2 = '\x7b' then
      let cs1 := cs.dropWhile isSpaceJS
      let id := cs1.takeWhile isIdentChar
      if id = [] then none
      else
        match (cs1.dropWhile isIdentChar).dropWhile isSpaceJS with
        | e1 :: e2 :: rest =>
          if e1 = '\x7d' ∧ e2 = '\x7d' then some (⟨id⟩, rest)
          else none
        | _ => none
    else none
  | _ => none

theorem matchFiltered_length {l : List Char} {k fmt : String} {rest : List Char}
    (h : matchFiltered l = some (k, fmt, rest)) : rest.length < l.length := by
  unfold matchFiltered at h
  split at h
  case h_2 => exact absurd h (by simp)
  rename_i c1 c2 cs
  split at h
  case isFalse => exact absurd h (by simp)
  dsimp only at h
  split at h
  case isTrue => exact absurd h (by simp)
  split at h
  case h_2 => exact absurd h (by simp)
  rename_i p cs2 hd1
  split at h
  case isFalse => exact absurd h (by simp)
  split at h
  case h_2 => exact absurd h (by simp)
  rename_i d1 d2 d3 d4 d5 cs3 hd2
  split at h
  case isFalse => exact absurd h (by simp)
  split at h
  case h_2 => exact absurd h (by simp)
  rename_i q cs4 hd3
  split at h
  case isFalse => exact absurd h (by simp)
  split at h
  case isTrue => exact absurd h (by simp)
  split at h
  case h_2 => exact absurd h (by simp)
  rename_i q2 cs5 hd4
  split at h
  case isFalse => exact absurd h (by simp)
  split at h
  case h_2 => exact absurd h (by simp)
  rename_i f1 f2 rest2 hd5
  split at h
  case isFalse => exact absurd h (by simp)
  simp only [Option.some.injEq, Prod.mk.injEq] at h
  obtain ⟨-, -, hrest⟩ := h
  subst hrest
  have l1 : (List.dropWhile isSpaceJS cs).length ≤ cs.length := length_dropWhile_le' _ _
  have l2 : (List.dropWhile isIdentChar (List.dropWhile isSpaceJS cs)).length ≤
      (List.dropWhile isSpaceJS cs).length := length_dropWhile_le' _ _
  have l3 : (List.dropWhile isSpaceJS
        (List.dropWhile isIdentChar (List.dropWhile isSpaceJS cs))).length ≤
      (List.dropWhile isIdentChar (List.dropWhile isSpaceJS cs)).length :=
    length_dropWhile_le' _ _
  have e1 : (List.dropWhile isSpaceJS
        (List.dropWhile isIdentChar (List.dropWhile isSpaceJS cs))).length =
      cs2.length + 1 := by rw [hd1]; simp
  have l4 : (List.dropWhile isSpaceJS cs2).length ≤ cs2.length := length_dropWhile_le' _ _
  have e2 : (List.dropWhile isSpaceJS cs2).length = cs3.length + 5 := by rw [hd2]; simp
  have l5 : (List.dropWhile isSpaceJS cs3).length ≤ cs3.length := length_dropWhile_le' _ _
  have e3 : (List.dropWhile isSpaceJS cs3).length = cs4.length + 1 := by rw [hd3]; simp
  have l6 : (List.dropWhile (fun c => !(c = '"')) cs4).length ≤ cs4.length :=
    length_dropWhile_le' _ _
  have e4 : (List.dropWhile (fun c => !(c = '"')) cs4).length = cs5.length + 1 := by
    rw [hd4]; simp
  have l7 : (List.dropWhile isSpaceJS cs5).length ≤ cs5.length := length_dropWhile_le' _ _
  have e5 : (List.dropWhile isSpaceJS cs5).length = rest2.length + 2 := by rw [hd5]; simp
  simp only [List.length_cons]
  omega

theorem matchBare_length {l : List Char} {k : String} {rest : List Char}
    (h : matchBare l = some (k, rest)) : rest.length < l.length := by
  unfold matchBare at h
  split at h
  case h_2 => exact absurd h (by simp)
  rename_i c1 c2 cs
  split at h
  case isFalse => exact absurd h (by simp)
  dsimp only at h
  split at h
  case isTrue => exact absurd h (by simp)
  split at h
  case h_2 => exact absurd h (by simp)
  rename_i f1 f2 rest2 hd1
  split at h
  case isFalse => exact absurd h (by simp)
  simp only [Option.some.injEq, Prod.mk.injEq] at h
  obtain ⟨-, hrest⟩ := h
  subst hrest
  have l1 : (List.dropWhile isSpaceJS cs).length ≤ cs.length := length_dropWhile_le' _ _
  have l2 : (List.dropWhile isIdentChar (List.dropWhile isSpaceJS cs)).length ≤
      (List.dropWhile isSpaceJS cs).length := length_dropWhile_le' _ _
  have l3 : (List.dropWhile isSpaceJS
        (List.dropWhile isIdentChar (List.dropWhile isSpaceJS cs))).length ≤
      (List.dropWhile isIdentChar (List.dropWhile isSpaceJS cs)).length :=
    length_dropWhile_le' _ _
  have e1 : (List.dropWhile isSpaceJS
        (List.dropWhile isIdentChar (List.dropWhile isSpaceJS cs))).length =
      rest2.length + 2 := by rw [hd1]; simp
  simp only [List.length_cons]
  omega

/-- The replacement callback of the second (bare) pass: `""` for an absent
or `null` payload value, `String(v)` otherwise. -/
def bareSubst (data : Payload) (key : String) : String :=
  match data key with
  | .undef => ""
  | .null => ""
  | v => jsToString v

/-- First pass of `renderTemplate`: the global replace of the filtered
(date) placeholder regex, substituting `formatDate(data?.[key], fmt)`.
The scan visits each position left to right and never rescans replacement
text, exactly JS global `String.replace`. -/
def pass1 (data : Payload) (l : List Char) : List Char :=
  match l with
  | [] => []
  | c :: cs =>
    match h : matchFiltered (c :: cs) with
    | some res => (formatDate (data res.1) res.2.1).toList ++ pass1 data res.2.2
    | none => c :: pass1 data cs
termination_by l.length
decreasing_by
  · exact matchFiltered_length h
  · simp

/-- Second pass of `renderTemplate`: the global replace of the bare
placeholder regex, substituting `bareSubst`. -/
def pass2 (data : Payload) (l : List Char) : List Char :=
  match l with
  | [] => []
  | c :: cs =>
    match h : matchBare (c :: cs) with
    | some res => (bareSubst data res.1).toList ++ pass2 data res.2
    | none => c :: pass2 data cs
termination_by l.length
decreasing_by
  · exact matchBare_length h
  · simp

/-- `renderTemplate` on character lists: the filtered pass runs over the
whole template first, then the bare pass runs over its entire output. -/
def renderTemplateL (data : Payload) (l : List Char) : List Char :=
  pass2 data (pass1 data l)

/-- `renderTemplate` from the server file. -/
def renderTemplate (html : String) (data : Payload) : String :=
  ⟨renderTemplateL data html.toList⟩

/-! ### Step lemmas for the passes -/

theorem pass1_nil (data : Payload) : pass1 data [] = [] := by
  unfold pass1
  rfl

theorem pass2_nil (data : Payload) : pass2 data [] = [] := by
  unfold pass2
  rfl

theorem pass1_cons_some {c : Char} {cs : List Char} {k fmt : String} {rest : List Char}
    (data : Payload) (h : matchFiltered (c :: cs) = some (k, fmt, rest)) :
    pass1 data (c :: cs) = (formatDate (data k) fmt).toList ++ pass1 data rest := by
  conv_lhs => rw [pass1]
  split
  · rename_i res heq
    rw [h] at heq
    cases heq
    rfl
  · rename_i heq
    rw [h] at heq
    cases heq

theorem pass1_cons_none {c : Char} {cs : List Char} (data : Payload)
    (h : matchFiltered (c :: cs) = none) :
    pass1 data (c :: cs) = c :: pass1 data cs := by
  conv_lhs => rw [pass1]
  split
  · rename_i res heq
    rw [h] at heq
    cases heq
  · rfl

theorem pass2_cons_some {c : Char} {cs : List Char} {k : String} {rest : List Char}
    (data : Payload) (h : matchBare (c :: cs) = some (k, rest)) :
    pass2 data (c :: cs) = (bareSubst data k).toList ++ pass2 data rest := by
  conv_lhs => rw [pass2]
  split
  · rename_i res heq
    rw [h] at heq
    cases heq
    rfl
  · rename_i heq
    rw [h] at heq
    cases heq

theorem pass2_cons_none {c : Char} {cs : List Char} (data : Payload)
    (h : matchBare (c :: cs) = none) :
    pass2 data (c :: cs) = c :: pass2 data cs := by
  conv_lhs => rw [pass2]
  split
  · rename_i res heq
    rw [h] at heq
    cases heq
  · rfl

/-! ### The matchers on placeholder-shaped inputs -/

theorem takeWhile_append_all {p : Char → Bool} {k : List Char} {b : Char} (t : List Char)
    (hk : ∀ c ∈ k, p c = true) (hb : p b = false) :
    List.takeWhile p (k ++ b :: t) = k := by
  induction k with
  | nil => simp [List.takeWhile_cons, hb]
  | cons c cs ih =>
    have hc : p c = true := hk c (by simp)
    simp only [List.cons_append, List.takeWhile_cons_of_pos hc]
    rw [ih (fun x hx => hk x (by simp [hx]))]

theorem dropWhile_append_all {p : Char → Bool} {k : List Char} {b : Char} (t : List Char)
    (hk : ∀ c ∈ k, p c = true) (hb : p b = false) :
    List.dropWhile p (k ++ b :: t) = b :: t := by
  induction k with
  | nil => simp [List.dropWhile_cons, hb]
  | cons c cs ih =>
    have hc : p c = true := hk c (by simp)
    simp only [List.cons_append, List.dropWhile_cons_of_pos hc]
    exact ih (fun x hx => hk x (by simp [hx]))

theorem dropWhile_all_nil {p : Char → Bool} {k : List Char}
    (hk : ∀ c ∈ k, p c = true) : List.dropWhile p k = [] := by
  induction k with
  | nil => rfl
  | cons c cs ih =>
    have hc : p c = true := hk c (by simp)
    simp only [List.dropWhile_cons_of_pos hc]
    exact ih (fun x hx => hk x (by simp [hx]))

/-- A matcher can only fire where the input starts with a brace. -/
theorem matchFiltered_not_brace {c : Char} (cs : List Char) (hc : ¬ c = '\x7b') :
    matchFiltered (c :: cs) = none := by
  unfold matchFiltered
  match cs with
  | [] => rfl
  | c2 :: cs' => simp [hc]

theorem matchBare_not_brace {c : Char} (cs : List Char) (hc : ¬ c = '\x7b') :
    matchBare (c :: cs) = none := by
  unfold matchBare
  match cs with
  | [] => rfl
  | c2 :: cs' => simp [hc]

/-- The bare matcher on an exact placeholder `{{key}}` (no inner spaces)
followed by arbitrary text: it captures the key and stops right after the
closing braces. -/
theorem matchBare_placeholder {k : List Char} (post : List Char) (hne : k ≠ [])
    (hid : ∀ c ∈ k, isIdentChar c = true) :
    matchBare ('\x7b' :: '\x7b' :: (k ++ '\x7d' :: '\x7d' :: post)) =
      some (⟨k⟩, post) := by
  obtain ⟨a, k', rfl⟩ := List.exists_cons_of_ne_nil hne
  unfold matchBare
  have hsp : ¬ isSpaceJS a = true := by simp [ident_not_space (hid a (by simp))]
  have hds : List.dropWhile isSpaceJS (a :: (k' ++ '\x7d' :: '\x7d' :: post)) =
      a :: (k' ++ '\x7d' :: '\x7d' :: post) := List.dropWhile_cons_of_neg hsp
  have hta : List.takeWhile isIdentChar (a :: (k' ++ '\x7d' :: '\x7d' :: post)) = a :: k' := by
    have := takeWhile_append_all (p := isIdentChar) (k := a :: k') (b := '\x7d')
      ('\x7d' :: post) hid (by decide)
    simpa using this
  have hda : List.dropWhile isIdentChar (a :: (k' ++ '\x7d' :: '\x7d' :: post)) =
      '\x7d' :: '\x7d' :: post := by
    have := dropWhile_append_all (p := isIdentChar) (k := a :: k') (b := '\x7d')
      ('\x7d' :: post) hid (by decide)
    simpa using this
  simp only [List.cons_append]
  rw [hds, hta, hda]
  simp [List.dropWhile_cons_of_neg (show ¬ isSpaceJS '\x7d' = true by decide)]

/-- The filtered matcher rejects a bare placeholder `{{key}}`: after the
captured name it requires a pipe, not a closing brace. -/
theorem matchFiltered_bare_none {k : List Char} (post : List Char) (hne : k ≠ [])
    (hid : ∀ c ∈ k, isIdentChar c = true) :
    matchFiltered ('\x7b' :: '\x7b' :: (k ++ '\x7d' :: '\x7d' :: post)) = none := by
  obtain ⟨a, k', rfl⟩ := List.exists_cons_of_ne_nil hne
  unfold matchFiltered
  have hsp : ¬ isSpaceJS a = true := by simp [ident_not_space (hid a (by simp))]
  have hds : List.dropWhile isSpaceJS (a :: (k' ++ '\x7d' :: '\x7d' :: post)) =
      a :: (k' ++ '\x7d' :: '\x7d' :: post) := List.dropWhile_cons_of_neg hsp
  have hta : List.takeWhile isIdentChar (a :: (k' ++ '\x7d' :: '\x7d' :: post)) = a :: k' := by
    have := takeWhile_append_all (p := isIdentChar) (k := a :: k') (b := '\x7d')
      ('\x7d' :: post) hid (by decide)
    simpa using this
  have hda : List.dropWhile isIdentChar (a :: (k' ++ '\x7d' :: '\x7d' :: post)) =
      '\x7d' :: '\x7d' :: post := by
    have := dropWhile_append_all (p := isIdentChar) (k := a :: k') (b := '\x7d')
      ('\x7d' :: post) hid (by decide)
    simpa using this
  simp only [List.cons_append]
  rw [hds, hta, hda]
  simp [List.dropWhile_cons_of_neg (show ¬ isSpaceJS '\x7d' = true by decide)]

/-- The filtered matcher on an exact filtered placeholder
`{{key | date: "fmt"}}` (single spaces as in the templates) followed by
arbitrary text. -/
theorem matchFiltered_placeholder {k fmt : List Char} (post : List Char)
    (hkne : k ≠ []) (hkid : ∀ c ∈ k, isIdentChar c = true)
    (hfne : fmt ≠ []) (hfq : ∀ c ∈ fmt, ¬ c = '"') :
    matchFiltered ('\x7b' :: '\x7b' :: (k ++ ' ' :: '|' :: ' ' :: 'd' :: 'a' :: 't' :: 'e' ::
        ':' :: ' ' :: '"' :: (fmt ++ '"' :: '\x7d' :: '\x7d' :: post))) =
      some (⟨k⟩, ⟨fmt⟩, post) := by
  obtain ⟨a, k', rfl⟩ := List.exists_cons_of_ne_nil hkne
  obtain ⟨b, f', rfl⟩ := List.exists_cons_of_ne_nil hfne
  unfold matchFiltered
  have hsp : ¬ isSpaceJS a = true := by simp [ident_not_space (hkid a (by simp))]
  have hds : List.dropWhile isSpaceJS (a :: (k' ++ ' ' :: '|' :: ' ' :: 'd' :: 'a' :: 't' ::
      'e' :: ':' :: ' ' :: '"' :: (b :: (f' ++ '"' :: '\x7d' :: '\x7d' :: post)))) =
      a :: (k' ++ ' ' :: '|' :: ' ' :: 'd' :: 'a' :: 't' ::
      'e' :: ':' :: ' ' :: '"' :: (b :: (f' ++ '"' :: '\x7d' :: '\x7d' :: post))) :=
    List.dropWhile_cons_of_neg hsp
  have hta : List.takeWhile isIdentChar (a :: (k' ++ ' ' :: '|' :: ' ' :: 'd' :: 'a' :: 't' ::
      'e' :: ':' :: ' ' :: '"' :: (b :: (f' ++ '"' :: '\x7d' :: '\x7d' :: post)))) = a :: k' := by
    have := takeWhile_append_all (p := isIdentChar) (k := a :: k') (b := ' ')
      ('|' :: ' ' :: 'd' :: 'a' :: 't' :: 'e' :: ':' :: ' ' :: '"' ::
        (b :: (f' ++ '"' :: '\x7d' :: '\x7d' :: post))) hkid (by decide)
    simpa using this
  have hda : List.dropWhile isIdentChar (a :: (k' ++ ' ' :: '|' :: ' ' :: 'd' :: 'a' :: 't' ::
      'e' :: ':' :: ' ' :: '"' :: (b :: (f' ++ '"' :: '\x7d' :: '\x7d' :: post)))) =
      ' ' :: '|' :: ' ' :: 'd' :: 'a' :: 't' :: 'e' :: ':' :: ' ' :: '"' ::
        (b :: (f' ++ '"' :: '\x7d' :: '\x7d' :: post)) := by
    have := dropWhile_append_all (p := isIdentChar) (k := a :: k') (b := ' ')
      ('|' :: ' ' :: 'd' :: 'a' :: 't' :: 'e' :: ':' :: ' ' :: '"' ::
        (b :: (f' ++ '"' :: '\x7d' :: '\x7d' :: post))) hkid (by decide)
    simpa using this
  have hqf : ∀ c ∈ b :: f', (fun c => !(c = '"' : Bool)) c = true := by
    intro c hc
    simp [hfq c hc]
  have htf : List.takeWhile (fun c => !(c = '"' : Bool))
      (b :: (f' ++ '"' :: '\x7d' :: '\x7d' :: post)) = b :: f' := by
    have := takeWhile_append_all (p := fun c => !(c = '"' : Bool)) (k := b :: f') (b := '"')
      ('\x7d' :: '\x7d' :: post) hqf (by simp)
    simpa using this
  have hdf : List.dropWhile (fun c => !(c = '"' : Bool))
      (b :: (f' ++ '"' :: '\x7d' :: '\x7d' :: post)) = '"' :: '\x7d' :: '\x7d' :: post := by
    have := dropWhile_append_all (p := fun c => !(c = '"' : Bool)) (k := b :: f') (b := '"')
      ('\x7d' :: '\x7d' :: post) hqf (by simp)
    simpa using this
  simp only [List.cons_append]
  rw [hds, hta, hda]
  rw [List.dropWhile_cons_of_pos (show isSpaceJS ' ' = true by decide),
    List.dropWhile_cons_of_neg (show ¬ isSpaceJS '|' = true by decide)]
  simp only [reduceIte]
  rw [List.dropWhile_cons_of_pos (show isSpaceJS ' ' = true by decide),
    List.dropWhile_cons_of_neg (show ¬ isSpaceJS 'd' = true by decide)]
  simp only [reduceIte]
  rw [List.dropWhile_cons_of_pos (show isSpaceJS ' ' = true by decide),
    List.dropWhile_cons_of_neg (show ¬ isSpaceJS '"' = true by decide)]
  simp [htf, hdf, List.dropWhile_cons_of_neg (show ¬ isSpaceJS '\x7d' = true by decide)]

theorem matchFiltered_not_brace2 {c1 c2 : Char} (cs : List Char)
    (hc : ¬ (c1 = '\x7b' ∧ c2 = '\x7b')) : matchFiltered (c1 :: c2 :: cs) = none := by
  unfold matchFiltered
  simp [hc]

theorem matchBare_not_brace2 {c1 c2 : Char} (cs : List Char)
    (hc : ¬ (c1 = '\x7b' ∧ c2 = '\x7b')) : matchBare (c1 :: c2 :: cs) = none := by
  unfold matchBare
  simp [hc]

/-- The filtered pass walks over any brace-free segment unchanged. -/
theorem pass1_append_nobrace (data : Payload) {pre : List Char} (l : List Char)
    (h : ∀ c ∈ pre, ¬ c = '\x7b') :
    pass1 data (pre ++ l) = pre ++ pass1 data l := by
  induction pre with
  | nil => rfl
  | cons c cs ih =>
    have hc : ¬ c = '\x7b' := h c (by simp)
    rw [List.cons_append, pass1_cons_none data (matchFiltered_not_brace _ hc),
      ih (fun x hx => h x (by simp [hx]))]
    rfl

/-- The bare pass walks over any brace-free segment unchanged. -/
theorem pass2_append_nobrace (data : Payload) {pre : List Char} (l : List Char)
    (h : ∀ c ∈ pre, ¬ c = '\x7b') :
    pass2 data (pre ++ l) = pre ++ pass2 data l := by
  induction pre with
  | nil => rfl
  | cons c cs ih =>
    have hc : ¬ c = '\x7b' := h c (by simp)
    rw [List.cons_append, pass2_cons_none data (matchBare_not_brace _ hc),
      ih (fun x hx => h x (by simp [hx]))]
    rfl

/-- A brace-free input passes through the filtered pass unchanged. -/
theorem pass1_nobrace (data : Payload) {l : List Char} (h : ∀ c ∈ l, ¬ c = '\x7b') :
    pass1 data l = l := by
  have := pass1_append_nobrace data [] h
  simpa [pass1_nil] using this

/-- A brace-free input passes through the bare pass unchanged. -/
theorem pass2_nobrace (data : Payload) {l : List Char} (h : ∀ c ∈ l, ¬ c = '\x7b') :
    pass2 data l = l := by
  have := pass2_append_nobrace data [] h
  simpa [pass2_nil] using this

/-- The bare pass substitutes a placeholder after a brace-free segment and
continues after the placeholder: in particular the substituted text itself
is never rescanned by this pass. -/
theorem pass2_placeholder (data : Payload) {pre k : List Char} (post : List Char)
    (hpre : ∀ c ∈ pre, ¬ c = '\x7b')
    (hkne : k ≠ []) (hkid : ∀ c ∈ k, isIdentChar c = true) :
    pass2 data (pre ++ '\x7b' :: '\x7b' :: (k ++ '\x7d' :: '\x7d' :: post)) =
      pre ++ (bareSubst data ⟨k⟩).toList ++ pass2 data post := by
  rw [pass2_append_nobrace data _ hpre,
    pass2_cons_some data (matchBare_placeholder post hkne hkid), List.append_assoc]

/-- The filtered pass leaves a bare placeholder untouched (no pipe). -/
theorem pass1_bare_placeholder (data : Payload) {pre k : List Char} (post : List Char)
    (hpre : ∀ c ∈ pre, ¬ c = '\x7b')
    (hkne : k ≠ []) (hkid : ∀ c ∈ k, isIdentChar c = true) :
    pass1 data (pre ++ '\x7b' :: '\x7b' :: (k ++ '\x7d' :: '\x7d' :: post)) =
      pre ++ '\x7b' :: '\x7b' :: (k ++ '\x7d' :: '\x7d' :: pass1 data post) := by
  obtain ⟨a, k', rfl⟩ := List.exists_cons_of_ne_nil hkne
  rw [pass1_append_nobrace data _ hpre]
  rw [pass1_cons_none data (matchFiltered_bare_none post (by simp) hkid)]
  have ha : isIdentChar a = true := hkid a (by simp)
  simp only [List.cons_append]
  rw [pass1_cons_none data (matchFiltered_not_brace2 _ (by
    intro hand
    exact ident_not_brace ha hand.2))]
  have hnb : ∀ c ∈ a :: (k' ++ ['\x7d', '\x7d']), ¬ c = '\x7b' := by
    intro c hc hceq
    subst hceq
    simp only [List.mem_cons, List.mem_append] at hc
    rcases hc with hc | hc | hc
    · exact ident_not_brace ha hc.symm
    · exact ident_not_brace (hkid _ (by simp [hc])) rfl
    · simp at hc
  have hmid : a :: (k' ++ '\x7d' :: '\x7d' :: post) =
      (a :: (k' ++ ['\x7d', '\x7d'])) ++ post := by simp
  rw [hmid, pass1_append_nobrace data post hnb]
  simp

/-- The filtered pass substitutes a filtered placeholder after a brace-free
segment and continues after the placeholder. -/
theorem pass1_filtered_placeholder (data : Payload) {pre k fmt : List Char} (post : List Char)
    (hpre : ∀ c ∈ pre, ¬ c = '\x7b')
    (hkne : k ≠ []) (hkid : ∀ c ∈ k, isIdentChar c = true)
    (hfne : fmt ≠ []) (hfq : ∀ c ∈ fmt, ¬ c = '"') :
    pass1 data (pre ++ '\x7b' :: '\x7b' :: (k ++ ' ' :: '|' :: ' ' :: 'd' :: 'a' :: 't' ::
        'e' :: ':' :: ' ' :: '"' :: (fmt ++ '"' :: '\x7d' :: '\x7d' :: post))) =
      pre ++ (formatDate (data ⟨k⟩) ⟨fmt⟩).toList ++ pass1 data post := by
  rw [pass1_append_nobrace data _ hpre,
    pass1_cons_some data (matchFiltered_placeholder post hkne hkid hfne hfq),
    List.append_assoc]

/-! ## Server environment and handlers -/

/-- The result of `uploadPdfAndSign`: the canonical `gs://` path and the
signed URL. -/
structure UploadRes where
  gcsPath : String
  url : String
deriving DecidableEq, Repr

/-- The external collaborators and environment configuration of one
request-handling run.  `fsRead` models `fs.readFile` on a template path;
`renderPdf` models `htmlToPdfBuffer` (PDF bytes as an abstract string);
`save` models `file.save` (given the PDF bytes and object name) and `sign`
models `file.getSignedUrl` (given the object name); each returns
`Except.error` with the thrown message on failure.  `uuid` models one
`crypto.randomUUID()` draw and `nowStampVal` one `nowStamp()` result. -/
structure Env where
  bucketName : String
  fsRead : String → Except String String
  renderPdf : String → Except String String
  save : String → String → Except String Unit
  sign : String → Except String String
  uuid : String
  nowStampVal : String

/-- The error message thrown by `uploadPdfAndSign` when no bucket is
configured. -/
def missingBucketMsg : String := "Missing BUCKET_NAME env var"

/-- `uploadPdfAndSign` from the server file: a configuration check on the
bucket name, then the save and the signed-URL request.  The upload options
(non-resumable, PDF content type, no-cache metadata) and the TTL passed to
signing are not observable in any claim and are absorbed by the `save` and
`sign` collaborators. -/
def uploadPdfAndSign (env : Env) (buffer objectName : String) : Except String UploadRes :=
  if env.bucketName = "" then .error missingBucketMsg
  else do
    let _ ← env.save buffer objectName
    let signedUrl ← env.sign objectName
    .ok ⟨"gs://" ++ env.bucketName ++ "/" ++ objectName, signedUrl⟩

/-- `TEMPLATE_FILES` from the server file, as the association list of its
six entries in source order (JS object property order for these non-numeric
keys).  Paths are relative to the server directory. -/
def TEMPLATE_FILES : List (String × String) :=
  [("meal_first", "templates/meal_first.html"),
   ("meal_weekly", "templates/meal_weekly.html"),
   ("workout_first", "templates/workout_first.html"),
   ("workout_weekly", "templates/workout_weekly.html"),
   ("bundle_first", "templates/bundle_first.html"),
   ("bundle_weekly", "templates/bundle_weekly.html")]

/-- `Object.keys(TEMPLATE_FILES)`. -/
def templateKeys : List String := TEMPLATE_FILES.map Prod.fst

/-- The error message of `generateOnePdf` for an unknown template key. -/
def unknownTemplateMsg (templateKey : String) : String :=
  "Unknown template_key \"" ++ templateKey ++ "\". Allowed: " ++
    String.intercalate ", " templateKeys

/-- The single-PDF result object assembled by `generateOnePdf`:
`{ template_key, job_id, bucket, fileName, objectName, ...uploaded }`.
`template_key` and `job_id` carry the raw JS values from the request. -/
structure FileObj where
  template_key : JSVal
  job_id : JSVal
  bucket : String
  fileName : String
  objectName : String
  gcsPath : String
  url : String
deriving DecidableEq, Repr

/-- `generateOnePdf` from the server file.  The template key is the raw
value resolved by the caller; property lookup and string interpolation
coerce it with `String(...)`. -/
def generateOnePdf (env : Env) (templateKey : JSVal) (payload : Payload) :
    Except String FileObj :=
  match TEMPLATE_FILES.lookup (jsToString templateKey) with
  | none => .error (unknownTemplateMsg (jsToString templateKey))
  | some tplPath => do
    let htmlRaw ← env.fsRead tplPath
    let html := renderTemplate htmlRaw payload
    let pdfBuffer ← env.renderPdf html
    let jobId := jsOr (payload "job_id") (.str env.uuid)
    let basePrefix := jsOr (payload "prefix")
      (.str ("pdfs/" ++ env.nowStampVal ++ "_" ++ jsToString jobId))
    let safeName := safeSlug (payload "client_name")
    let fileName := jsToString templateKey ++ "_" ++ safeName ++ "_" ++
      jsToString jobId ++ ".pdf"
    let objectName := jsToString basePrefix ++ "/" ++ fileName
    let uploaded ← uploadPdfAndSign env pdfBuffer objectName
    .ok { template_key := templateKey, job_id := jobId, bucket := env.bucketName,
          fileName := fileName, objectName := objectName,
          gcsPath := uploaded.gcsPath, url := uploaded.url }

/-- `resolveTemplateKey` from the server file:
`body.template_key || query.template_key || query.template || ""`. -/
def resolveTemplateKey (reqBody reqQuery : Payload) : JSVal :=
  jsOr (reqBody "template_key")
    (jsOr (reqQuery "template_key") (jsOr (reqQuery "template") (.str "")))

/-- The 400 error message of `POST /pdf` for a missing template key. -/
def missingTemplateMsg : String :=
  "Missing template_key. Allowed: " ++ String.intercalate ", " templateKeys

/-- The JSON response of `POST /pdf`: HTTP status, the `ok` flag, and the
`error` / `file` fields (absent fields are `none`). -/
structure PdfResp where
  status : Nat
  ok : Bool
  error : Option String
  file : Option FileObj
deriving DecidableEq, Repr

/-- The `POST /pdf` handler from the server file. -/
def postPdf (env : Env) (body query : Payload) : PdfResp :=
  let templateKey := resolveTemplateKey body query
  if jsFalsy templateKey then
    { status := 400, ok := false, error := some missingTemplateMsg, file := none }
  else
    match generateOnePdf env templateKey body with
    | .ok file => { status := 200, ok := true, error := none, file := some file }
    | .error e => { status := 500, ok := false, error := some e, file := none }

/-- Insertion into a JS object modelled as an association list: an existing
(string, non-numeric) key keeps its position and gets the new value, a new
key is appended. -/
def objInsert (l : List (String × FileObj)) (k : String) (v : FileObj) :
    List (String × FileObj) :=
  match l with
  | [] => [(k, v)]
  | (k', v') :: rest => if k' = k then (k', v) :: rest else (k', v') :: objInsert rest k v

/-- The sequential loop of `POST /pdfs`: generate each requested template
in order, short-circuiting on the first error (the whole batch request
fails at the first per-template error). -/
def genLoop (env : Env) (payload : Payload) (keys : List JSVal)
    (acc : List (String × FileObj)) : Except String (List (String × FileObj)) :=
  match keys with
  | [] => .ok acc
  | k :: ks =>
    match generateOnePdf env k payload with
    | .error e => .error e
    | .ok f => genLoop env payload ks (objInsert acc (jsToString k) f)

/-- The JSON response of `POST /pdfs`. -/
structure PdfsResp where
  status : Nat
  ok : Bool
  error : Option String
  job_id : Option JSVal
  bucket : Option String
  files : Option (List (String × FileObj))
deriving DecidableEq, Repr

/-- The `POST /pdfs` handler from the server file: `template_keys` is used
when it is a non-empty array, otherwise all known templates are generated
in the enumeration order of `TEMPLATE_FILES`. -/
def postPdfs (env : Env) (body : Payload) : PdfsResp :=
  let requested : Option (List JSVal) :=
    match body "template_keys" with
    | .arr xs => some xs
    | _ => none
  let keysToGenerate : List JSVal :=
    match requested with
    | some xs => if 0 < xs.length then xs else templateKeys.map .str
    | none => templateKeys.map .str
  match genLoop env body keysToGenerate [] with
  | .ok results =>
    { status := 200, ok := true, error := none,
      job_id := some (jsOr (body "job_id") JSVal.null),
      bucket := some env.bucketName, files := some results }
  | .error e =>
    { status := 500, ok := false, error := some e,
      job_id := none, bucket := none, files := none }

/-- JSON serialization of a `FileObj`, in the property order the server
builds the object. -/
def fileObjJson (f : FileObj) : List (String × String) :=
  [("template_key", jsToString f.template_key),
   ("job_id", jsToString f.job_id),
   ("bucket", f.bucket),
   ("fileName", f.fileName),
   ("objectName", f.objectName),
   ("gcsPath", f.gcsPath),
   ("url", f.url)]

/-! ## Browser lifecycle model -/

/-- The process-wide state around `browserPromise`: the cached promise (by
id) if a launch has started, a fresh-promise counter, and how many
`chromium.launch` calls have happened. -/
structure BrowserSt where
  browserPromise : Option Nat
  nextId : Nat
  launches : Nat
deriving DecidableEq, Repr

/-- Initial module state: `let browserPromise = null`. -/
def initBrowserSt : BrowserSt := { browserPromise := none, nextId := 0, launches := 0 }

/-- `getBrowser` from the server file.  Its body is synchronous (no await
between the null check and the assignment), so on the JS event loop each
call runs atomically: modelled as one step returning the promise that the
caller will await. -/
def getBrowser (s : BrowserSt) : BrowserSt × Nat :=
  match s.browserPromise with
  | none =>
    ({ browserPromise := some s.nextId, nextId := s.nextId + 1,
       launches := s.launches + 1 }, s.nextId)
  | some p => (s, p)

/-- A sequence of `n` `getBrowser` calls (in any interleaving of requests,
each call is one atomic event-loop step), returning the final state and
the promises handed out in order. -/
def runGetBrowser : Nat → BrowserSt → BrowserSt × List Nat
  | 0, s => (s, [])
  | n + 1, s =>
    let (s', h) := getBrowser s
    let (s'', hs) := runGetBrowser n s'
    (s'', h :: hs)

/-- `shutdown` from the server file closes the cached browser exactly when
one was launched: returns the id of the browser it closes, `none` when
`browserPromise` is still null. -/
def shutdownCloses (s : BrowserSt) : Option Nat := s.browserPromise

/-! ## Helper lemmas -/

theorem collapseRuns_nil : collapseRuns [] = [] := by
  unfold collapseRuns
  rfl

theorem collapseRuns_cons_pos {c : Char} (cs : List Char) (h : isLowerAlnum c = true) :
    collapseRuns (c :: cs) = c :: collapseRuns cs := by
  conv_lhs => rw [collapseRuns]
  simp [h]

theorem collapseRuns_cons_neg {c : Char} (cs : List Char) (h : isLowerAlnum c = false) :
    collapseRuns (c :: cs) = '-' :: collapseRuns (cs.dropWhile fun x => !isLowerAlnum x) := by
  conv_lhs => rw [collapseRuns]
  simp [h]

/-- A run of alphanumeric characters passes the collapse unchanged. -/
theorem collapseRuns_all_alnum {l : List Char} (h : ∀ c ∈ l, isLowerAlnum c = true) :
    collapseRuns l = l := by
  induction l with
  | nil => exact collapseRuns_nil
  | cons c cs ih =>
    rw [collapseRuns_cons_pos cs (h c (by simp)), ih (fun x hx => h x (by simp [hx]))]

/-- A non-empty all-non-alphanumeric input collapses to a single dash. -/
theorem collapseRuns_all_nonalnum {l : List Char} (hne : l ≠ [])
    (h : ∀ c ∈ l, isLowerAlnum c = false) : collapseRuns l = ['-'] := by
  obtain ⟨c, cs, rfl⟩ := List.exists_cons_of_ne_nil hne
  rw [collapseRuns_cons_neg cs (h c (by simp))]
  rw [dropWhile_all_nil (fun x hx => by simp [h x (by simp [hx])])]
  rw [collapseRuns_nil]

/-- Rendering the empty template gives the empty string, for any payload. -/
theorem renderTemplate_empty (data : Payload) : renderTemplate "" data = "" := by
  show (⟨renderTemplateL data ("" : String).toList⟩ : String) = ""
  rw [show ("" : String).toList = [] from rfl]
  unfold renderTemplateL
  rw [pass1_nil, pass2_nil]

theorem objInsert_fresh {l : List (String × FileObj)} {k : String} (v : FileObj)
    (h : ¬ k ∈ l.map Prod.fst) : objInsert l k v = l ++ [(k, v)] := by
  induction l with
  | nil => rfl
  | cons p rest ih =>
    obtain ⟨k', v'⟩ := p
    simp only [List.map_cons, List.mem_cons] at h
    push_neg at h
    simp only [objInsert]
    rw [if_neg (fun he => h.1 he.symm)]
    rw [ih h.2]
    simp

/-- The batch loop when every requested key generates successfully: the
accumulated object lists the results in request order. -/
theorem genLoop_all_ok (env : Env) (payload : Payload) (f : String → FileObj) :
    ∀ (ks : List String) (acc : List (String × FileObj)),
    (∀ k ∈ ks, generateOnePdf env (.str k) payload = .ok (f k)) →
    ks.Nodup → (∀ k ∈ ks, ¬ k ∈ acc.map Prod.fst) →
    genLoop env payload (ks.map .str) acc = .ok (acc ++ ks.map fun k => (k, f k))
  | [], acc, _, _, _ => by simp [genLoop]
  | k :: ks, acc, hok, hnd, hfresh => by
    simp only [List.map_cons, genLoop, hok k (by simp)]
    rw [show jsToString (.str k) = k from rfl]
    rw [objInsert_fresh (f k) (hfresh k (by simp))]
    rw [genLoop_all_ok env payload f ks (acc ++ [(k, f k)])
      (fun x hx => hok x (by simp [hx]))
      (List.Nodup.of_cons hnd)
      (by
        intro x hx
        simp only [List.map_append, List.mem_append]
        push_neg
        refine ⟨hfresh x (by simp [hx]), ?_⟩
        have hxk : ¬ x = k := by
          intro hxe
          subst hxe
          exact (List.nodup_cons.mp hnd).1 hx
        simp [hxk])]
    simp

/-- `POST /pdfs` with a non-empty requested key list, all succeeding. -/
theorem postPdfs_requested_ok (env : Env) (body : Payload) (ks : List String)
    (f : String → FileObj)
    (h1 : body "template_keys" = .arr (ks.map .str)) (h2 : ks ≠ [])
    (h3 : ks.Nodup) (h4 : ∀ k ∈ ks, generateOnePdf env (.str k) body = .ok (f k)) :
    postPdfs env body =
      { status := 200, ok := true, error := none,
        job_id := some (jsOr (body "job_id") JSVal.null), bucket := some env.bucketName,
        files := some (ks.map fun k => (k, f k)) } := by
  unfold postPdfs
  rw [h1]
  dsimp only
  rw [if_pos (by simpa using List.length_pos.mpr h2)]
  rw [genLoop_all_ok env body f ks [] h4 h3 (by simp)]
  simp

/-- `POST /pdfs` with `template_keys` absent (or not an array): all six
templates are generated in the enumeration order of the template map. -/
theorem postPdfs_default_ok (env : Env) (body : Payload) (f : String → FileObj)
    (h1 : ∀ xs, ¬ body "template_keys" = .arr xs)
    (h4 : ∀ k ∈ templateKeys, generateOnePdf env (.str k) body = .ok (f k)) :
    postPdfs env body =
      { status := 200, ok := true, error := none,
        job_id := some (jsOr (body "job_id") JSVal.null), bucket := some env.bucketName,
        files := some (templateKeys.map fun k => (k, f k)) } := by
  unfold postPdfs
  have hnone : (match body "template_keys" with
      | .arr xs => some xs
      | _ => none) = (none : Option (List JSVal)) := by
    cases hv : body "template_keys"
    case arr xs => exact absurd hv (h1 xs)
    all_goals rfl
  rw [hnone]
  dsimp only
  rw [genLoop_all_ok env body f templateKeys [] h4 (by decide) (by simp)]
  simp

/-- After a launch, further `getBrowser` calls return the cached promise and
change nothing. -/
theorem runGetBrowser_cached (n p id m : Nat) :
    runGetBrowser n { browserPromise := some p, nextId := id, launches := m } =
      ({ browserPromise := some p, nextId := id, launches := m }, List.replicate n p) := by
  induction n with
  | zero => rfl
  | succ n ih => simp [runGetBrowser, getBrowser, ih, List.replicate_succ]

/-! ## Concrete environments for witnesses and counterexamples -/

/-- An environment in which every collaborator succeeds: a configured
bucket, empty template files, an abstract PDF buffer, and deterministic
signing; one uuid draw `"u1"` and timestamp `"20240101_000000"`. -/
def envOk : Env :=
  { bucketName := "bkt",
    fsRead := fun _ => .ok "",
    renderPdf := fun _ => .ok "PDF",
    save := fun _ _ => .ok (),
    sign := fun o => .ok ("https://signed/" ++ o),
    uuid := "u1",
    nowStampVal := "20240101_000000" }

/-- The environment with no bucket configured (`BUCKET_NAME` empty); the
storage collaborators fail with their own messages if ever reached. -/
def envNoBucket : Env :=
  { bucketName := "",
    fsRead := fun _ => .ok "",
    renderPdf := fun _ => .ok "PDF",
    save := fun _ _ => .error "savefail",
    sign := fun _ => .error "signfail",
    uuid := "u1",
    nowStampVal := "20240101_000000" }

/-- File name produced by `generateOnePdf` under `envOk`. -/
def envOkFileName (tk : String) (p : Payload) (slug : String) : String :=
  tk ++ "_" ++ slug ++ "_" ++ jsToString (jsOr (p "job_id") (.str "u1")) ++ ".pdf"

/-- Object name produced by `generateOnePdf` under `envOk`. -/
def envOkObjectName (tk : String) (p : Payload) (slug : String) : String :=
  jsToString (jsOr (p "prefix")
      (.str ("pdfs/" ++ "20240101_000000" ++ "_" ++ jsToString (jsOr (p "job_id") (.str "u1"))))) ++
    "/" ++ envOkFileName tk p slug

/-- Result object of `generateOnePdf` under `envOk`. -/
def envOkFileObj (tk : String) (p : Payload) (slug : String) : FileObj :=
  { template_key := .str tk, job_id := jsOr (p "job_id") (.str "u1"), bucket := "bkt",
    fileName := envOkFileName tk p slug,
    objectName := envOkObjectName tk p slug,
    gcsPath := "gs://" ++ "bkt" ++ "/" ++ envOkObjectName tk p slug,
    url := "https://signed/" ++ envOkObjectName tk p slug }

theorem exceptOk_bind {a : Type} {b : Type} (x : a) (f : a → Except String b) :
    (Except.ok x >>= f) = f x := rfl

theorem exceptError_bind {a : Type} {b : Type} (e : String) (f : a → Except String b) :
    ((Except.error e : Except String a) >>= f) = Except.error e := rfl

/-- Evaluation of `generateOnePdf` under `envOk` for a known template key,
with the slug of the client name supplied as an equation. -/
theorem generateOnePdf_envOk_ok (tk tplPath : String) (p : Payload) (slug : String)
    (hlook : TEMPLATE_FILES.lookup tk = some tplPath)
    (hslug : safeSlug (p "client_name") = slug) :
    generateOnePdf envOk (.str tk) p = .ok (envOkFileObj tk p slug) := by
  unfold generateOnePdf
  rw [show jsToString (.str tk) = tk from rfl]
  simp only [hlook]
  rw [show (envOk.fsRead tplPath) = Except.ok "" from rfl, exceptOk_bind]
  rw [show (envOk.renderPdf (renderTemplate "" p)) = Except.ok "PDF" from rfl, exceptOk_bind]
  rw [hslug]
  unfold uploadPdfAndSign
  rw [if_neg (show ¬ envOk.bucketName = "" by decide)]
  rw [show ∀ o, envOk.save "PDF" o = Except.ok () from fun _ => rfl]
  rw [exceptOk_bind]
  rw [show ∀ o, envOk.sign o = Except.ok ("https://signed/" ++ o) from fun _ => rfl]
  rw [exceptOk_bind, exceptOk_bind]
  rfl

/-! ## Claim theorems -/

/-- C9: across all render calls in one process the shared browser is
created at most once: from the initial state, any positive number of
`getBrowser` calls performs exactly one launch, every call (including two
simultaneous first requests) receives the same cached promise, and the
shutdown handler closes exactly that browser. -/
theorem C9_single_browser_launch (n : Nat) (h : 1 ≤ n) :
    (runGetBrowser n initBrowserSt).1.launches = 1 ∧
    (runGetBrowser n initBrowserSt).2 = List.replicate n 0 ∧
    shutdownCloses (runGetBrowser n initBrowserSt).1 = some 0 := by
  obtain ⟨m, rfl⟩ : ∃ m, n = m + 1 := ⟨n - 1, by omega⟩
  simp [runGetBrowser, getBrowser, initBrowserSt, runGetBrowser_cached, shutdownCloses,
    List.replicate_succ]

theorem C9_witness :
    (runGetBrowser 2 initBrowserSt).1.launches = 1 ∧
    (runGetBrowser 2 initBrowserSt).2 = List.replicate 2 0 ∧
    shutdownCloses (runGetBrowser 2 initBrowserSt).1 = some 0 :=
  C9_single_browser_launch 2 (by decide)

/-- C10 (amended): the slug segment used in `fileName` is at most 80
characters; a falsy `client_name` (absent, empty, `0`, `false`, `null`)
yields the literal segment `"client"`; but a non-falsy all-non-alphanumeric
`client_name` yields the EMPTY segment, not `"client"`. -/
theorem C10_safe_slug_truncation_and_fallback (v : JSVal) :
    (safeSlug v).length ≤ 80 ∧
    (jsFalsy v = true → safeSlug v = "client") ∧
    (jsFalsy v = false →
      (∀ c ∈ (jsToString v).toList.map Char.toLower, isLowerAlnum c = false) →
      safeSlug v = "") := by
  refine ⟨?_, ?_, ?_⟩
  · by_cases hf : jsFalsy v = true
    · simp only [safeSlug, hf, if_true]
      decide
    · simp only [safeSlug, hf, if_false]
      show (List.take 80 _).length ≤ 80
      rw [List.length_take]
      exact Nat.min_le_left _ _
  · intro hf
    simp [safeSlug, hf]
  · intro hf hall
    simp only [safeSlug, hf, Bool.false_eq_true, if_false]
    by_cases hnil : (jsToString v).toList.map Char.toLower = []
    · rw [hnil, collapseRuns_nil]
      rfl
    · rw [collapseRuns_all_nonalnum hnil hall]
      rfl

theorem C10_witness :
    (safeSlug (.str "Jane Doe")).length ≤ 80 ∧ safeSlug (.str "") = "client" ∧
    safeSlug (.str "??") = "" :=
  ⟨(C10_safe_slug_truncation_and_fallback (.str "Jane Doe")).1,
   (C10_safe_slug_truncation_and_fallback (.str "")).2.1 (by decide),
   (C10_safe_slug_truncation_and_fallback (.str "??")).2.2 (by decide) (by decide)⟩

/-- C10 counterexample: the non-empty all-non-alphanumeric client name
`"!!!"` slugs to the empty string, not to `"client"` as the claim states. -/
theorem C10_counterexample : safeSlug (.str "!!!") = "" ∧ ¬ ("" : String) = "client" := by
  refine ⟨?_, by decide⟩
  have hcoll : collapseRuns ("!!!".toList.map Char.toLower) = ['-'] :=
    collapseRuns_all_nonalnum (by decide) (by decide)
  simp only [safeSlug]
  rw [if_neg (by decide)]
  rw [show jsToString (.str "!!!") = "!!!" from rfl, hcoll]
  rfl

/-- C2: for every payload, the second (bare) pass of `renderTemplate`
replaces a bare placeholder with the stringified payload value — empty
string when the value is absent or `null` — leaving any brace-free text
before it unchanged and processing the rest of the template after it
(`{{name}}` with `name = "Ann"` yields `Ann`; with `name` absent, the
empty string). -/
theorem C2_bare_placeholder_substitution (data : Payload) (pre k post : List Char)
    (hpre : ∀ c ∈ pre, ¬ c = '\x7b')
    (hkne : k ≠ []) (hkid : ∀ c ∈ k, isIdentChar c = true) :
    renderTemplateL data (pre ++ '\x7b' :: '\x7b' :: (k ++ '\x7d' :: '\x7d' :: post)) =
      pre ++ (bareSubst data ⟨k⟩).toList ++ renderTemplateL data post ∧
    ((data ⟨k⟩ = .undef ∨ data ⟨k⟩ = .null) → bareSubst data ⟨k⟩ = "") ∧
    (¬ data ⟨k⟩ = .undef → ¬ data ⟨k⟩ = .null →
      bareSubst data ⟨k⟩ = jsToString (data ⟨k⟩)) := by
  refine ⟨?_, ?_, ?_⟩
  · unfold renderTemplateL
    rw [pass1_bare_placeholder data post hpre hkne hkid]
    exact pass2_placeholder data (pass1 data post) hpre hkne hkid
  · intro h
    rcases h with h | h <;> simp [bareSubst, h]
  · intro h1 h2
    cases hv : data ⟨k⟩ <;> simp_all [bareSubst]

theorem C2_witness :
    renderTemplateL (fun s => if s = "name" then .str "Ann" else .undef)
      ('\x7b' :: '\x7b' :: (['n', 'a', 'm', 'e'] ++ '\x7d' :: '\x7d' :: [])) = ['A', 'n', 'n'] ∧
    renderTemplateL (fun _ => .undef)
      ('\x7b' :: '\x7b' :: (['n', 'a', 'm', 'e'] ++ '\x7d' :: '\x7d' :: [])) = [] := by
  have hren : ∀ data : Payload, renderTemplateL data [] = [] := by
    intro data
    unfold renderTemplateL
    rw [pass1_nil, pass2_nil]
  constructor
  · have h := (C2_bare_placeholder_substitution
      (fun s => if s = "name" then .str "Ann" else .undef)
      [] ['n', 'a', 'm', 'e'] [] (by simp) (by decide) (by decide)).1
    rw [List.nil_append] at h
    rw [h, hren]
    rw [show bareSubst (fun s => if s = "name" then .str "Ann" else .undef)
      ⟨['n', 'a', 'm', 'e']⟩ = "Ann" from by decide]
    rfl
  · have h := (C2_bare_placeholder_substitution (fun _ => .undef)
      [] ['n', 'a', 'm', 'e'] [] (by simp) (by decide) (by decide)).1
    rw [List.nil_append] at h
    rw [h, hren]
    rfl

/-- The shared payload of the C4 theorems: `a` and `d` carry the
placeholder-like text `{{b}}`, and `b` carries `X`. -/
def dataC4 : Payload := fun s =>
  if s = "a" then .str "\x7b\x7bb\x7d\x7d"
  else if s = "d" then .str "\x7b\x7bb\x7d\x7d"
  else if s = "b" then .str "X"
  else (.undef : JSVal)

/-- C4 (amended): a payload value containing placeholder-like text is not
rescanned by the pass that inserted it — the bare pass substitutes `{{a}}`
by the literal `{{b}}` and leaves it — but text inserted by the FIRST
(filtered) pass IS scanned by the second pass: the same value inserted
through the date filter is substituted again, yielding `X`. -/
theorem C4_single_pass_non_recursion :
    renderTemplateL dataC4 ('\x7b' :: '\x7b' :: (['a'] ++ '\x7d' :: '\x7d' :: [])) =
      ['\x7b', '\x7b', 'b', '\x7d', '\x7d'] ∧
    renderTemplateL dataC4 ('\x7b' :: '\x7b' :: (['d'] ++ ' ' :: '|' :: ' ' :: 'd' :: 'a' ::
      't' :: 'e' :: ':' :: ' ' :: '"' :: (['x'] ++ '"' :: '\x7d' :: '\x7d' :: []))) = ['X'] := by
  constructor
  · show renderTemplateL dataC4
      ([] ++ '\x7b' :: '\x7b' :: (['a'] ++ '\x7d' :: '\x7d' :: [])) = _
    unfold renderTemplateL
    rw [pass1_bare_placeholder dataC4 [] (by simp) (by decide) (by decide)]
    rw [pass1_nil]
    rw [pass2_placeholder dataC4 [] (by simp) (by decide) (by decide)]
    rw [pass2_nil]
    rw [show bareSubst dataC4 ⟨['a']⟩ = "\x7b\x7bb\x7d\x7d" from by decide]
    rfl
  · show renderTemplateL dataC4
      ([] ++ '\x7b' :: '\x7b' :: (['d'] ++ ' ' :: '|' :: ' ' :: 'd' :: 'a' ::
        't' :: 'e' :: ':' :: ' ' :: '"' :: (['x'] ++ '"' :: '\x7d' :: '\x7d' :: []))) = _
    unfold renderTemplateL
    rw [pass1_filtered_placeholder dataC4 [] (by simp) (by decide) (by decide)
      (by decide) (by decide)]
    rw [pass1_nil]
    rw [show formatDate (dataC4 ⟨['d']⟩) ⟨['x']⟩ = "\x7b\x7bb\x7d\x7d" from by decide]
    rw [List.nil_append, List.append_nil]
    rw [show ("\x7b\x7bb\x7d\x7d" : String).toList =
      [] ++ '\x7b' :: '\x7b' :: (['b'] ++ '\x7d' :: '\x7d' :: []) from rfl]
    rw [pass2_placeholder dataC4 [] (by simp) (by decide) (by decide)]
    rw [pass2_nil]
    rw [show bareSubst dataC4 ⟨['b']⟩ = "X" from by decide]
    rfl

/-- C4 counterexample: the claim says a payload value containing
placeholder-like text is never re-processed by either pass, but a value
inserted by the date-filter pass is scanned by the bare pass: rendering
`{{d | date: "x"}}` with `d = "{{name}}"` and `name = "Ann"` yields `Ann`,
not the inserted literal `{{name}}`. -/
theorem C4_counterexample :
    renderTemplate "\x7b\x7bd | date: \"x\"\x7d\x7d"
      (fun s => if s = "d" then .str "\x7b\x7bname\x7d\x7d"
        else if s = "name" then .str "Ann" else .undef) = "Ann" ∧
    ¬ ("Ann" : String) = "\x7b\x7bname\x7d\x7d" := by
  refine ⟨?_, by decide⟩
  unfold renderTemplate
  rw [show ("\x7b\x7bd | date: \"x\"\x7d\x7d" : String).toList =
    [] ++ '\x7b' :: '\x7b' :: (['d'] ++ ' ' :: '|' :: ' ' :: 'd' :: 'a' ::
      't' :: 'e' :: ':' :: ' ' :: '"' :: (['x'] ++ '"' :: '\x7d' :: '\x7d' :: [])) from rfl]
  unfold renderTemplateL
  rw [pass1_filtered_placeholder _ [] (by simp) (by decide) (by decide)
    (by decide) (by decide)]
  rw [pass1_nil]
  rw [show formatDate ((fun s => if s = "d" then JSVal.str "\x7b\x7bname\x7d\x7d"
    else if s = "name" then JSVal.str "Ann" else JSVal.undef) ⟨['d']⟩) ⟨['x']⟩ =
    "\x7b\x7bname\x7d\x7d" from by decide]
  rw [List.nil_append, List.append_nil]
  rw [show ("\x7b\x7bname\x7d\x7d" : String).toList =
    [] ++ '\x7b' :: '\x7b' :: (['n', 'a', 'm', 'e'] ++ '\x7d' :: '\x7d' :: []) from rfl]
  rw [pass2_placeholder _ [] (by simp) (by decide) (by decide)]
  rw [pass2_nil]
  rw [show bareSubst (fun s => if s = "d" then JSVal.str "\x7b\x7bname\x7d\x7d"
    else if s = "name" then JSVal.str "Ann" else JSVal.undef) ⟨['n', 'a', 'm', 'e']⟩ =
    "Ann" from by decide]
  rfl

/-- C3 (amended): the filtered placeholder substitutes
`formatDate(payload[key], fmt)`, where a FALSY value (absent, `null`,
empty string, `0`, `false`) short-circuits to the empty string before any
date parsing; otherwise an unparseable value falls back to the literal
`String(...)` form, the pattern `"%B %d, %Y"` renders month name,
zero-padded day and year, and any other pattern renders ISO `YYYY-MM-DD`. -/
theorem C3_date_filter_substitution (data : Payload) (pre k fmt post : List Char)
    (hpre : ∀ c ∈ pre, ¬ c = '\x7b')
    (hkne : k ≠ []) (hkid : ∀ c ∈ k, isIdentChar c = true)
    (hfne : fmt ≠ []) (hfq : ∀ c ∈ fmt, ¬ c = '"') :
    pass1 data (pre ++ '\x7b' :: '\x7b' :: (k ++ ' ' :: '|' :: ' ' :: 'd' :: 'a' :: 't' ::
        'e' :: ':' :: ' ' :: '"' :: (fmt ++ '"' :: '\x7d' :: '\x7d' :: post))) =
      pre ++ (formatDate (data ⟨k⟩) ⟨fmt⟩).toList ++ pass1 data post ∧
    (jsFalsy (data ⟨k⟩) = true → formatDate (data ⟨k⟩) ⟨fmt⟩ = "") ∧
    (jsFalsy (data ⟨k⟩) = false → jsDateParse (data ⟨k⟩) = none →
      formatDate (data ⟨k⟩) ⟨fmt⟩ = jsToString (data ⟨k⟩)) ∧
    (∀ d, jsFalsy (data ⟨k⟩) = false → jsDateParse (data ⟨k⟩) = some d →
      (⟨fmt⟩ : String) = "%B %d, %Y" →
      formatDate (data ⟨k⟩) ⟨fmt⟩ =
        monthsJS.getD (d.month - 1) "" ++ " " ++ padTwo d.day ++ ", " ++ toString d.year) ∧
    (∀ d, jsFalsy (data ⟨k⟩) = false → jsDateParse (data ⟨k⟩) = some d →
      ¬ (⟨fmt⟩ : String) = "%B %d, %Y" →
      formatDate (data ⟨k⟩) ⟨fmt⟩ =
        toString d.year ++ "-" ++ padTwo d.month ++ "-" ++ padTwo d.day) := by
  refine ⟨pass1_filtered_placeholder data post hpre hkne hkid hfne hfq, ?_, ?_, ?_, ?_⟩
  · intro hf
    simp [formatDate, hf]
  · intro hf hp
    simp [formatDate, hf, hp]
  · intro d hf hp hfmt
    simp [formatDate, hf, hp, hfmt]
  · intro d hf hp hfmt
    simp [formatDate, hf, hp, hfmt]

/-- Payload of the C3 witness: `d` is the ISO date string `2024-03-05`. -/
def dataC3 : Payload := fun s => if s = "d" then .str "2024-03-05" else .undef

theorem C3_witness :
    pass1 dataC3 ('\x7b' :: '\x7b' :: (['d'] ++ ' ' :: '|' :: ' ' :: 'd' :: 'a' :: 't' ::
        'e' :: ':' :: ' ' :: '"' ::
        ("%B %d, %Y".toList ++ '"' :: '\x7d' :: '\x7d' :: []))) =
      "March 05, 2024".toList ∧
    jsDateParse (.str "2024-03-05") = some ⟨2024, 3, 5⟩ := by
  refine ⟨?_, by decide⟩
  have h := (C3_date_filter_substitution dataC3 [] ['d'] "%B %d, %Y".toList []
    (by simp) (by decide) (by decide) (by decide) (by decide)).1
  rw [List.nil_append] at h
  rw [h, pass1_nil]
  rw [show formatDate (dataC3 ⟨['d']⟩) ⟨"%B %d, %Y".toList⟩ = "March 05, 2024" from by decide]
  rfl

/-- C3 counterexample: the payload value `0` is date-parseable
(`new Date(0)` is the epoch, 1970-01-01), yet the date filter substitutes
the empty string for it — neither the formatted date `January 01, 1970`
nor the literal `0` — because `formatDate` short-circuits falsy input. -/
theorem C3_counterexample :
    renderTemplate "\x7b\x7bd | date: \"%B %d, %Y\"\x7d\x7d"
      (fun s => if s = "d" then .num 0 else .undef) = "" ∧
    jsDateParse (.num 0) = some ⟨1970, 1, 1⟩ ∧
    ¬ ("" : String) = "January 01, 1970" ∧
    ¬ ("" : String) = "0" := by
  refine ⟨?_, by decide, by decide, by decide⟩
  unfold renderTemplate
  rw [show ("\x7b\x7bd | date: \"%B %d, %Y\"\x7d\x7d" : String).toList =
    [] ++ '\x7b' :: '\x7b' :: (['d'] ++ ' ' :: '|' :: ' ' :: 'd' :: 'a' :: 't' ::
      'e' :: ':' :: ' ' :: '"' ::
      ("%B %d, %Y".toList ++ '"' :: '\x7d' :: '\x7d' :: [])) from rfl]
  unfold renderTemplateL
  rw [pass1_filtered_placeholder _ [] (by simp) (by decide) (by decide)
    (by decide) (by decide)]
  rw [pass1_nil]
  rw [show formatDate ((fun s => if s = "d" then JSVal.num 0 else JSVal.undef) ⟨['d']⟩)
    ⟨"%B %d, %Y".toList⟩ = "" from by decide]
  rw [show ("" : String).toList = [] from rfl]
  rw [List.nil_append, List.append_nil, pass2_nil]

/-- C1 (amended): a `POST /pdf` request whose resolved template key is
MISSING (falsy) gets HTTP 400 with `ok:false` and a message listing the
allowed keys; a request whose key is present but UNKNOWN gets HTTP 500
(not 400) with `ok:false` and the `Unknown template_key` message, which
also lists the allowed keys. -/
theorem C1_pdf_template_key_validation (env : Env) (body query : Payload) :
    (jsFalsy (resolveTemplateKey body query) = true →
      postPdf env body query =
        { status := 400, ok := false, error := some missingTemplateMsg, file := none }) ∧
    (jsFalsy (resolveTemplateKey body query) = false →
      TEMPLATE_FILES.lookup (jsToString (resolveTemplateKey body query)) = none →
      postPdf env body query =
        { status := 500, ok := false,
          error := some (unknownTemplateMsg (jsToString (resolveTemplateKey body query))),
          file := none }) := by
  constructor
  · intro hf
    simp [postPdf, hf]
  · intro hf hlook
    unfold postPdf
    rw [if_neg (by simp [hf])]
    unfold generateOnePdf
    rw [hlook]

/-- C1 counterexample: a request with the unknown template key `"nope"`
is answered with HTTP 500, not with the HTTP 400 the claim requires for
unknown keys. -/
theorem C1_counterexample :
    (postPdf envOk (fun s => if s = "template_key" then .str "nope" else .undef)
      (fun _ => .undef)).status = 500 ∧
    ¬ (postPdf envOk (fun s => if s = "template_key" then .str "nope" else .undef)
      (fun _ => .undef)).status = 400 := by
  constructor <;> decide

theorem C1_witness :
    postPdf envOk (fun _ => .undef) (fun _ => .undef) =
      { status := 400, ok := false, error := some missingTemplateMsg, file := none } ∧
    postPdf envOk (fun s => if s = "template_key" then .str "zzz" else .undef)
        (fun _ => .undef) =
      { status := 500, ok := false,
        error := some (unknownTemplateMsg (jsToString (resolveTemplateKey
          (fun s => if s = "template_key" then .str "zzz" else .undef) (fun _ => .undef)))),
        file := none } :=
  ⟨(C1_pdf_template_key_validation envOk (fun _ => .undef) (fun _ => .undef)).1 (by decide),
   (C1_pdf_template_key_validation envOk
      (fun s => if s = "template_key" then .str "zzz" else .undef) (fun _ => .undef)).2
    (by decide) (by decide)⟩

/-- C5: a `POST /pdfs` request with a non-empty `template_keys` array whose
(distinct, known) keys all generate successfully answers 200 with `files`
holding exactly the requested keys in the requested order (the sequential
loop preserves request order; no other key appears); with `template_keys`
absent, all six known templates are generated in the enumeration order of
the template map. -/
theorem C5_batch_keys_order (env : Env) (body : Payload) (ks : List String)
    (f : String → FileObj) :
    (body "template_keys" = .arr (ks.map .str) → ks ≠ [] → ks.Nodup →
      (∀ k ∈ ks, generateOnePdf env (.str k) body = .ok (f k)) →
      (postPdfs env body).status = 200 ∧
      (postPdfs env body).files = some (ks.map fun k => (k, f k)) ∧
      (ks.map fun k => (k, f k)).map Prod.fst = ks) ∧
    ((∀ xs, ¬ body "template_keys" = .arr xs) →
      (∀ k ∈ templateKeys, generateOnePdf env (.str k) body = .ok (f k)) →
      (postPdfs env body).files = some (templateKeys.map fun k => (k, f k))) := by
  constructor
  · intro h1 h2 h3 h4
    rw [postPdfs_requested_ok env body ks f h1 h2 h3 h4]
    refine ⟨rfl, rfl, ?_⟩
    have : (Prod.fst ∘ fun k => (k, f k)) = id := funext fun k => rfl
    rw [List.map_map, this, List.map_id]
  · intro h1 h4
    rw [postPdfs_default_ok env body f h1 h4]

/-- Body of the C5 witness: two requested templates, in an order different
from the template map enumeration would give for them. -/
def bodyC5 : Payload := fun s =>
  if s = "template_keys" then .arr [.str "workout_first", .str "meal_first"]
  else if s = "job_id" then .str "j1"
  else (.undef : JSVal)

/-- Body of the C5 witness default arm: no `template_keys`. -/
def bodyC5b : Payload := fun s => if s = "job_id" then .str "j1" else .undef

theorem C5_witness :
    ((postPdfs envOk bodyC5).status = 200 ∧
      (postPdfs envOk bodyC5).files =
        some (["workout_first", "meal_first"].map fun k => (k, envOkFileObj k bodyC5 "client")) ∧
      (["workout_first", "meal_first"].map fun k =>
        (k, envOkFileObj k bodyC5 "client")).map Prod.fst = ["workout_first", "meal_first"]) ∧
    (postPdfs envOk bodyC5b).files =
      some (templateKeys.map fun k => (k, envOkFileObj k bodyC5b "client")) := by
  constructor
  · refine (C5_batch_keys_order envOk bodyC5 ["workout_first", "meal_first"]
      (fun k => envOkFileObj k bodyC5 "client")).1 (by decide) (by decide) (by decide) ?_
    intro k hk
    simp only [List.mem_cons, List.not_mem_nil, or_false] at hk
    rcases hk with rfl | rfl
    · exact generateOnePdf_envOk_ok "workout_first" "templates/workout_first.html"
        bodyC5 "client" (by decide) (by decide)
    · exact generateOnePdf_envOk_ok "meal_first" "templates/meal_first.html"
        bodyC5 "client" (by decide) (by decide)
  · refine (C5_batch_keys_order envOk bodyC5b templateKeys
      (fun k => envOkFileObj k bodyC5b "client")).2 ?_ ?_
    · intro xs h
      exact JSVal.noConfusion h
    · intro k hk
      simp only [templateKeys, TEMPLATE_FILES, List.map_cons, List.map_nil,
        List.mem_cons, List.not_mem_nil, or_false] at hk
      rcases hk with rfl | rfl | rfl | rfl | rfl | rfl
      · exact generateOnePdf_envOk_ok "meal_first" "templates/meal_first.html"
          bodyC5b "client" (by decide) (by decide)
      · exact generateOnePdf_envOk_ok "meal_weekly" "templates/meal_weekly.html"
          bodyC5b "client" (by decide) (by decide)
      · exact generateOnePdf_envOk_ok "workout_first" "templates/workout_first.html"
          bodyC5b "client" (by decide) (by decide)
      · exact generateOnePdf_envOk_ok "workout_weekly" "templates/workout_weekly.html"
          bodyC5b "client" (by decide) (by decide)
      · exact generateOnePdf_envOk_ok "bundle_first" "templates/bundle_first.html"
          bodyC5b "client" (by decide) (by decide)
      · exact generateOnePdf_envOk_ok "bundle_weekly" "templates/bundle_weekly.html"
          bodyC5b "client" (by decide) (by decide)

/-- Modelled from the spec: the batch `files` entry shape the claim
asserts — the single-PDF file object minus its `template_key`, `job_id`
and `bucket` fields. -/
def specBatchEntryFields : List String := ["fileName", "objectName", "gcsPath", "url"]

/-- The field names of the full single-PDF file object, in build order. -/
def fileObjFieldNames : List String :=
  ["template_key", "job_id", "bucket", "fileName", "objectName", "gcsPath", "url"]

/-- C6 (amended): a successful `POST /pdfs` answers
`{ok:true, job_id, bucket, files}`, and each entry of `files` is the FULL
single-PDF file object — including the `template_key`, `job_id` and
`bucket` fields, not minus them. -/
theorem C6_batch_entry_shape (env : Env) (body : Payload) (ks : List String)
    (f : String → FileObj)
    (h1 : body "template_keys" = .arr (ks.map .str)) (h2 : ks ≠ []) (h3 : ks.Nodup)
    (h4 : ∀ k ∈ ks, generateOnePdf env (.str k) body = .ok (f k)) :
    postPdfs env body =
      { status := 200, ok := true, error := none,
        job_id := some (jsOr (body "job_id") JSVal.null),
        bucket := some env.bucketName,
        files := some (ks.map fun k => (k, f k)) } ∧
    ∀ p ∈ ks.map (fun k => (k, f k)),
      (fileObjJson p.2).map Prod.fst = fileObjFieldNames := by
  refine ⟨postPdfs_requested_ok env body ks f h1 h2 h3 h4, ?_⟩
  intro p hp
  rfl

/-- Body of the C6 witness and counterexample: one requested template. -/
def bodyC6 : Payload := fun s =>
  if s = "template_keys" then .arr [.str "meal_first"] else .undef

theorem C6_witness :
    postPdfs envOk bodyC6 =
      { status := 200, ok := true, error := none,
        job_id := some (jsOr (bodyC6 "job_id") JSVal.null),
        bucket := some envOk.bucketName,
        files := some (["meal_first"].map fun k => (k, envOkFileObj k bodyC6 "client")) } ∧
    ∀ p ∈ ["meal_first"].map (fun k => (k, envOkFileObj k bodyC6 "client")),
      (fileObjJson p.2).map Prod.fst = fileObjFieldNames :=
  C6_batch_entry_shape envOk bodyC6 ["meal_first"]
    (fun k => envOkFileObj k bodyC6 "client") (by decide) (by decide) (by decide)
    (by
      intro k hk
      simp only [List.mem_cons, List.not_mem_nil, or_false] at hk
      subst hk
      exact generateOnePdf_envOk_ok "meal_first" "templates/meal_first.html"
        bodyC6 "client" (by decide) (by decide))

/-- C6 counterexample: in a successful batch response the `meal_first`
entry of `files` carries the full single-PDF object; its serialized field
names are not the claimed shape minus `template_key`/`job_id`/`bucket` —
in particular `template_key` is present. -/
theorem C6_counterexample :
    (postPdfs envOk bodyC6).files =
      some [("meal_first", envOkFileObj "meal_first" bodyC6 "client")] ∧
    ¬ (fileObjJson (envOkFileObj "meal_first" bodyC6 "client")).map Prod.fst =
      specBatchEntryFields ∧
    "template_key" ∈ (fileObjJson (envOkFileObj "meal_first" bodyC6 "client")).map Prod.fst := by
  refine ⟨?_, by decide, by decide⟩
  rw [postPdfs_requested_ok envOk bodyC6 ["meal_first"]
    (fun k => envOkFileObj k bodyC6 "client") (by decide) (by decide) (by decide)
    (by
      intro k hk
      simp only [List.mem_cons, List.not_mem_nil, or_false] at hk
      subst hk
      exact generateOnePdf_envOk_ok "meal_first" "templates/meal_first.html"
        bodyC6 "client" (by decide) (by decide))]
  rfl

/-- C7 (amended): for every successful render, the uploaded object key is
`<basePrefix>/<templateKey>_<slug>_<jobId>.pdf`, where the prefix defaults
to `pdfs/<UTCtimestamp>_<jobId>` when the caller supplies none, the job id
defaults to a fresh uuid, and the slug is `safeSlug(client_name)` —
lowercased, non-alphanumeric runs collapsed to `-`, leading/trailing `-`
trimmed, AND truncated to at most 80 characters, with a falsy client name
replaced by `"client"`. -/
theorem C7_object_key_layout (env : Env) (templateKey : JSVal) (payload : Payload)
    (f : FileObj) (h : generateOnePdf env templateKey payload = .ok f) :
    f.fileName = jsToString templateKey ++ "_" ++ safeSlug (payload "client_name") ++ "_" ++
      jsToString (jsOr (payload "job_id") (.str env.uuid)) ++ ".pdf" ∧
    f.objectName = jsToString (jsOr (payload "prefix")
      (.str ("pdfs/" ++ env.nowStampVal ++ "_" ++
        jsToString (jsOr (payload "job_id") (.str env.uuid))))) ++ "/" ++ f.fileName ∧
    (safeSlug (payload "client_name")).length ≤ 80 := by
  have hlen : (safeSlug (payload "client_name")).length ≤ 80 := by
    by_cases hf : jsFalsy (payload "client_name") = true
    · simp only [safeSlug, hf, if_true]
      decide
    · simp only [safeSlug, hf, if_false]
      show (List.take 80 _).length ≤ 80
      rw [List.length_take]
      exact Nat.min_le_left _ _
  unfold generateOnePdf at h
  split at h
  case h_1 => exact absurd h (by simp)
  rename_i tplPath hlook
  cases hfs : env.fsRead tplPath
  case error e =>
    rw [hfs, exceptError_bind] at h
    exact absurd h (by simp)
  case ok htmlRaw =>
  rw [hfs, exceptOk_bind] at h
  dsimp only at h
  cases hrp : env.renderPdf (renderTemplate htmlRaw payload)
  case error e =>
    rw [hrp, exceptError_bind] at h
    exact absurd h (by simp)
  case ok pdf =>
  rw [hrp, exceptOk_bind] at h
  cases hup : uploadPdfAndSign env pdf
    (jsToString (jsOr (payload "prefix")
        (.str ("pdfs/" ++ env.nowStampVal ++ "_" ++
          jsToString (jsOr (payload "job_id") (.str env.uuid))))) ++ "/" ++
      (jsToString templateKey ++ "_" ++ safeSlug (payload "client_name") ++ "_" ++
        jsToString (jsOr (payload "job_id") (.str env.uuid)) ++ ".pdf"))
  case error e =>
    rw [hup, exceptError_bind] at h
    exact absurd h (by simp)
  case ok uploaded =>
  rw [hup, exceptOk_bind] at h
  simp only [Except.ok.injEq] at h
  subst h
  exact ⟨rfl, rfl, hlen⟩

/-- Modelled from the spec: the sanitized client name exactly as the claim
words it — the lowercased `client_name` with runs of non-alphanumerics
replaced by `-` and leading/trailing `-` removed (no truncation, no
fallback value). -/
def specSanitizedName (s : String) : String :=
  ⟨trimDash (collapseRuns (s.toList.map Char.toLower))⟩

/-- An 81-character alphanumeric client name. -/
def nameC7 : String := "aaaaaaaaaaaaaaaaaaaaaaaaaaaaaaaaaaaaaaaaaaaaaaaaaaaaaaaaaaaaaaaaaaaaaaaaaaaaaaaaa"

/-- Its first 80 characters. -/
def slugC7 : String := "aaaaaaaaaaaaaaaaaaaaaaaaaaaaaaaaaaaaaaaaaaaaaaaaaaaaaaaaaaaaaaaaaaaaaaaaaaaaaaaa"

/-- Body of the C7 counterexample: the 81-character client name. -/
def bodyC7 : Payload := fun s =>
  if s = "client_name" then .str nameC7 else if s = "job_id" then .str "j1"
  else (.undef : JSVal)

/-- C7 counterexample: for the 81-character client name the upload key uses
the 80-character truncation, so it does not follow the claim inline
definition of the sanitized name (which has no truncation and sanitizes
this name to itself). -/
theorem C7_counterexample :
    generateOnePdf envOk (.str "meal_first") bodyC7 =
      .ok (envOkFileObj "meal_first" bodyC7 slugC7) ∧
    specSanitizedName nameC7 = nameC7 ∧
    ¬ (envOkFileObj "meal_first" bodyC7 slugC7).fileName =
      "meal_first_" ++ nameC7 ++ "_j1.pdf" := by
  have hcoll : collapseRuns (nameC7.toList.map Char.toLower) = nameC7.toList := by
    rw [show nameC7.toList.map Char.toLower = nameC7.toList from by decide]
    exact collapseRuns_all_alnum (by decide)
  have hspec : specSanitizedName nameC7 = nameC7 := by
    unfold specSanitizedName
    rw [hcoll]
    rw [show trimDash nameC7.toList = nameC7.toList from by decide]
    decide
  have hslug : safeSlug (.str nameC7) = slugC7 := by
    simp only [safeSlug]
    rw [if_neg (by decide)]
    rw [show jsToString (.str nameC7) = nameC7 from rfl, hcoll]
    rw [show trimDash nameC7.toList = nameC7.toList from by decide]
    decide
  refine ⟨?_, hspec, by decide⟩
  exact generateOnePdf_envOk_ok "meal_first" "templates/meal_first.html" bodyC7 slugC7
    (by decide) hslug

/-- Body of the C7 witness: client name `Jane Doe`. -/
def bodyJane : Payload := fun s =>
  if s = "client_name" then .str "Jane Doe" else if s = "job_id" then .str "j1" else .undef

theorem C7_witness :
    (envOkFileObj "meal_first" bodyJane "jane-doe").fileName = "meal_first_jane-doe_j1.pdf" ∧
    (envOkFileObj "meal_first" bodyJane "jane-doe").objectName =
      "pdfs/20240101_000000_j1/meal_first_jane-doe_j1.pdf" := by
  have hslug : safeSlug (bodyJane "client_name") = "jane-doe" := by
    simp only [safeSlug]
    rw [if_neg (by decide)]
    rw [show (jsToString (bodyJane "client_name")).toList.map Char.toLower =
      ['j', 'a', 'n', 'e', ' ', 'd', 'o', 'e'] from by decide]
    rw [collapseRuns_cons_pos _ (by decide), collapseRuns_cons_pos _ (by decide),
      collapseRuns_cons_pos _ (by decide), collapseRuns_cons_pos _ (by decide),
      collapseRuns_cons_neg _ (by decide)]
    rw [show List.dropWhile (fun x => !isLowerAlnum x) ['d', 'o', 'e'] = ['d', 'o', 'e']
      from by decide]
    rw [collapseRuns_cons_pos _ (by decide), collapseRuns_cons_pos _ (by decide),
      collapseRuns_cons_pos _ (by decide), collapseRuns_nil]
    decide
  have hgen := generateOnePdf_envOk_ok "meal_first" "templates/meal_first.html"
    bodyJane "jane-doe" (by decide) hslug
  have h := C7_object_key_layout envOk (.str "meal_first") bodyJane _ hgen
  refine ⟨?_, ?_⟩
  · rw [h.1, hslug]
    decide
  · rw [h.2.1, h.1, hslug]
    decide

/-- C8: `uploadPdfAndSign` fails with the configuration error exactly when
no storage bucket is configured (given that the storage collaborators
never use that exact message themselves), and in that case a render
request that reaches the upload step is answered HTTP 500 with `ok:false`,
the message identifying the missing bucket configuration, and no file
object in the response. -/
theorem C8_bucket_configuration_error (env : Env) (body query : Payload)
    (tplPath htmlRaw pdf : String)
    (hsave : ∀ b o e, env.save b o = .error e → ¬ e = missingBucketMsg)
    (hsign : ∀ o e, env.sign o = .error e → ¬ e = missingBucketMsg) :
    (∀ buffer objectName,
      (uploadPdfAndSign env buffer objectName = .error missingBucketMsg ↔
        env.bucketName = "")) ∧
    (env.bucketName = "" →
      jsFalsy (resolveTemplateKey body query) = false →
      TEMPLATE_FILES.lookup (jsToString (resolveTemplateKey body query)) = some tplPath →
      env.fsRead tplPath = .ok htmlRaw →
      env.renderPdf (renderTemplate htmlRaw body) = .ok pdf →
      postPdf env body query =
        { status := 500, ok := false, error := some missingBucketMsg, file := none }) := by
  constructor
  · intro buffer objectName
    constructor
    · intro herr
      by_contra hb
      unfold uploadPdfAndSign at herr
      rw [if_neg hb] at herr
      cases hs : env.save buffer objectName
      case error e =>
        rw [hs, exceptError_bind] at herr
        simp only [Except.error.injEq] at herr
        exact hsave buffer objectName e hs herr
      case ok u =>
        rw [hs, exceptOk_bind] at herr
        cases hg : env.sign objectName
        case error e =>
          rw [hg, exceptError_bind] at herr
          simp only [Except.error.injEq] at herr
          exact hsign objectName e hg herr
        case ok u2 =>
          rw [hg, exceptOk_bind] at herr
          exact absurd herr (by simp)
    · intro hb
      unfold uploadPdfAndSign
      rw [if_pos hb]
  · intro hb hkey hlook hfs hrp
    unfold postPdf
    rw [if_neg (by simp [hkey])]
    unfold generateOnePdf
    simp only [hlook]
    rw [hfs, exceptOk_bind]
    rw [hrp, exceptOk_bind]
    unfold uploadPdfAndSign
    rw [if_pos hb, exceptError_bind]

theorem C8_witness :
    uploadPdfAndSign envNoBucket "b" "o" = .error missingBucketMsg ∧
    postPdf envNoBucket (fun s => if s = "template_key" then .str "meal_first" else .undef)
      (fun _ => .undef) =
      { status := 500, ok := false, error := some missingBucketMsg, file := none } := by
  have h := C8_bucket_configuration_error envNoBucket
    (fun s => if s = "template_key" then .str "meal_first" else .undef) (fun _ => .undef)
    "templates/meal_first.html" "" "PDF"
    (by
      intro b o e he
      rw [show envNoBucket.save b o = Except.error "savefail" from rfl] at he
      simp only [Except.error.injEq] at he
      subst he
      decide)
    (by
      intro o e he
      rw [show envNoBucket.sign o = Except.error "signfail" from rfl] at he
      simp only [Except.error.injEq] at he
      subst he
      decide)
  exact ⟨(h.1 "b" "o").mpr rfl, h.2 rfl (by decide) (by decide) rfl rfl⟩
